import Mathlib

/-!
Verification of the round-based betting coordinator (`src/bet.py`).

The Python program is a chat bot whose core is a round lifecycle and
slot-allocation state machine over a user ledger, round settings, a
cumulative result tally and a winner set.  We embed that core shallowly:
each handler becomes a pure function on an explicit `State`; MongoDB
`find_one` / `update_one` / `update_many` calls become list operations on
the ledger (`update_one` updates the first matching record, `update_many`
maps over all matching records); handler early-returns that only reply
with an error message and perform no write become `Except` errors.
Chat-transport side effects (QR codes, message sends, forwarding) are
outside the state and are not modelled; the Boolean returned by
`handle_payment_screenshot` records the "final attempt" warning the code
issues.  The dead `pending_confirmations` collection (only ever deleted
from, never inserted into or read) is omitted.
-/

namespace Bet

/-- A bet side, the `"heads"` / `"tails"` strings of the source. -/
inductive Side where
  | heads
  | tails
deriving DecidableEq

/-- A user approval status, the `"waiting"` / `"approved"` / `"disapproved"`
strings of the source; the record field itself is an `Option Status`
because a fresh user has `status = None`. -/
inductive Status where
  | waiting
  | approved
  | disapproved
deriving DecidableEq

/-- One document of `users_collection`, as created by `start`. -/
structure User where
  user_id : Nat
  name : String
  bet : Option Side
  status : Option Status
  payment_attempts : Nat
deriving DecidableEq

/-- The `settings_collection` singleton.  Slot counters are `Int` because
the stored Mongo integers are signed and the code decrements
`available_slots` without a lower-bound check. -/
structure Settings where
  betting_open : Bool
  total_slots : Int
  available_slots : Int
  next_betting_time : Option String
  result_announcement_time : Option String
deriving DecidableEq

/-- The `results_collection` singleton: cumulative declared-outcome counts. -/
structure Results where
  heads : Nat
  tails : Nat
deriving DecidableEq

/-- The whole persisted state: user ledger (in insertion order), settings,
result tally, and the winner-id list of `winners_collection`. -/
structure State where
  users : List User
  settings : Settings
  results : Results
  winners : List Nat
deriving DecidableEq

/-- `users_collection.find_one({"user_id": uid})`: first record with the id. -/
def findUser (users : List User) (uid : Nat) : Option User :=
  users.find? (fun u => u.user_id == uid)

/-- `users_collection.update_one({"user_id": uid}, ...)`: rewrite the first
record with the id, leave the rest unchanged. -/
def updateUser (users : List User) (uid : Nat) (f : User → User) : List User :=
  match users with
  | [] => []
  | u :: rest =>
    if u.user_id == uid then f u :: rest else u :: updateUser rest uid f

/-- The error taxonomy: each early-return reply of a handler that performs
no state write. -/
inductive Err where
  | notRegistered
  | roundClosed
  | slotsFull
  | alreadyBet
  | noBetPlaced
  | attemptsExceeded
  | unauthorized
  | userNotFound
deriving DecidableEq

/-- `start`: create the user record on first contact
(`bet = None`, `status = None`, `payment_attempts = 0`); a repeat `/start`
changes nothing. -/
def start (s : State) (uid : Nat) (name : String) : State :=
  match findUser s.users uid with
  | some _ => s
  | none =>
    { s with users := s.users ++
        [{ user_id := uid, name := name, bet := none, status := none,
           payment_attempts := 0 }] }

/-- The `/bet` command handler's validation: betting must be open and a slot
available before the Heads/Tails keyboard is offered.  It writes nothing. -/
def bet (s : State) : Except Err Unit :=
  if s.settings.betting_open = false then .error .roundClosed
  else if s.settings.available_slots ≤ 0 then .error .slotsFull
  else .ok ()

/-- `handle_bet_choice`: the callback for the chosen side.  Requires a
registered user with no bet yet; records the side.  `available_slots` is
not decremented here (source comment: decrement happens only on approval). -/
def handle_bet_choice (s : State) (uid : Nat) (choice : Side) :
    Except Err State :=
  match findUser s.users uid with
  | none => .error .notRegistered
  | some u =>
    if u.bet.isSome then .error .alreadyBet
    else .ok { s with
      users := updateUser s.users uid (fun v => { v with bet := some choice }) }

/-- Placing a bet end to end: the `/bet` command's checks followed by the
choice callback. -/
def place_bet (s : State) (uid : Nat) (choice : Side) : Except Err State :=
  match bet s with
  | .error e => .error e
  | .ok () => handle_bet_choice s uid choice

/-- `handle_payment_screenshot`: requires a registered user with a non-null
bet and `payment_attempts < 3`; sets `status = waiting` (first `update_one`)
then increments `payment_attempts` (second `update_one`).  The returned
Boolean is the "final attempt" warning, issued exactly when the attempt
just recorded is the 3rd; an `ok` result is a submission that was accepted
and forwarded to the admin. -/
def handle_payment_screenshot (s : State) (uid : Nat) :
    Except Err (State × Bool) :=
  match findUser s.users uid with
  | none => .error .notRegistered
  | some u =>
    if u.bet.isNone then .error .noBetPlaced
    else if 3 ≤ u.payment_attempts then .error .attemptsExceeded
    else
      let users1 := updateUser s.users uid
        (fun v => { v with status := some .waiting })
      let users2 := updateUser users1 uid
        (fun v => { v with payment_attempts := v.payment_attempts + 1 })
      .ok ({ s with users := users2 }, u.payment_attempts + 1 == 3)

/-- `approve_user`: admin only; requires the target record to exist.  Sets
`status = approved` and `payment_attempts = 0` in one `update_one`, then
unconditionally decrements `available_slots`.  There is no
`status != approved` guard and no lower bound on the decrement. -/
def approve_user (admin : Nat) (s : State) (caller uid : Nat) :
    Except Err State :=
  if caller ≠ admin then .error .unauthorized
  else
    match findUser s.users uid with
    | none => .error .userNotFound
    | some _ =>
      .ok { s with
        users := updateUser s.users uid
          (fun v => { v with status := some .approved, payment_attempts := 0 }),
        settings := { s.settings with
          available_slots := s.settings.available_slots - 1 } }

/-- `disapprove_user`: admin only; sets `status = disapproved` and
`payment_attempts = 0`; no slot change. -/
def disapprove_user (admin : Nat) (s : State) (caller uid : Nat) :
    Except Err State :=
  if caller ≠ admin then .error .unauthorized
  else
    match findUser s.users uid with
    | none => .error .userNotFound
    | some _ =>
      .ok { s with
        users := updateUser s.users uid
          (fun v => { v with status := some .disapproved,
                             payment_attempts := 0 }) }

/-- `declare_result`: admin only, side already validated to heads/tails.
In order: increment the declared side's cumulative counter, compute the
winner list as the ids of users with `bet == side` and
`status == approved` (replacing the previous list wholesale), and reset
`available_slots` to `total_slots`.  Users and `betting_open` are untouched. -/
def declare_result (admin : Nat) (s : State) (caller : Nat) (side : Side) :
    Except Err State :=
  if caller ≠ admin then .error .unauthorized
  else
    let results' : Results :=
      match side with
      | .heads => { s.results with heads := s.results.heads + 1 }
      | .tails => { s.results with tails := s.results.tails + 1 }
    let winners' :=
      (s.users.filter
        (fun u => u.bet == some side && u.status == some .approved)).map
        (fun u => u.user_id)
    .ok { s with
      results := results',
      winners := winners',
      settings := { s.settings with
        available_slots := s.settings.total_slots } }

/-- `reset`: admin only.  `update_many({"bet": {"$ne": None}}, ...)` clears
`bet`/`status`/`payment_attempts` for exactly the users holding a bet;
winners are emptied, both tally counters zeroed, `available_slots`
restored to `total_slots`, both scheduled times cleared.  No user record
is removed and `betting_open` is untouched. -/
def reset (admin : Nat) (s : State) (caller : Nat) : Except Err State :=
  if caller ≠ admin then .error .unauthorized
  else
    .ok { s with
      users := s.users.map (fun u =>
        if u.bet.isSome then
          { u with bet := none, status := none, payment_attempts := 0 }
        else u),
      winners := [],
      results := { heads := 0, tails := 0 },
      settings := { s.settings with
        available_slots := s.settings.total_slots,
        next_betting_time := none,
        result_announcement_time := none } }

/-- `fix_slots`: admin only; sets both `total_slots` and `available_slots`
to the given number. -/
def fix_slots (admin : Nat) (s : State) (caller : Nat) (n : Int) :
    Except Err State :=
  if caller ≠ admin then .error .unauthorized
  else
    .ok { s with settings := { s.settings with
      total_slots := n, available_slots := n } }

/-- `open_betting`: admin only; sets `betting_open` to true. -/
def open_betting (admin : Nat) (s : State) (caller : Nat) : Except Err State :=
  if caller ≠ admin then .error .unauthorized
  else .ok { s with settings := { s.settings with betting_open := true } }

/-- `close_betting`: admin only; sets `betting_open` to false. -/
def close_betting (admin : Nat) (s : State) (caller : Nat) : Except Err State :=
  if caller ≠ admin then .error .unauthorized
  else .ok { s with settings := { s.settings with betting_open := false } }

/-- `schedule_betting`: admin only; records the next betting time. -/
def schedule_betting (admin : Nat) (s : State) (caller : Nat) (t : String) :
    Except Err State :=
  if caller ≠ admin then .error .unauthorized
  else .ok { s with settings := { s.settings with next_betting_time := some t } }

/-- `set_announcement_time`: admin only; records the announcement time. -/
def set_announcement_time (admin : Nat) (s : State) (caller : Nat)
    (t : String) : Except Err State :=
  if caller ≠ admin then .error .unauthorized
  else .ok { s with settings := { s.settings with
    result_announcement_time := some t } }

/-- One inbound event, as dispatched to the handlers. -/
inductive Op where
  | startOp (uid : Nat) (name : String)
  | placeBet (uid : Nat) (choice : Side)
  | submitPayment (uid : Nat)
  | approve (caller uid : Nat)
  | disapprove (caller uid : Nat)
  | declare (caller : Nat) (side : Side)
  | resetRound (caller : Nat)
  | fixSlots (caller : Nat) (n : Int)
  | openBetting (caller : Nat)
  | closeBetting (caller : Nat)
  | schedule (caller : Nat) (t : String)
  | setAnnouncement (caller : Nat) (t : String)
deriving DecidableEq

/-- Process one event: a handler failure is a reply to the caller and
changes no state. -/
def step (admin : Nat) (s : State) (op : Op) : State :=
  match op with
  | .startOp uid name => start s uid name
  | .placeBet uid choice =>
    match place_bet s uid choice with
    | .ok s' => s'
    | .error _ => s
  | .submitPayment uid =>
    match handle_payment_screenshot s uid with
    | .ok (s', _) => s'
    | .error _ => s
  | .approve caller uid =>
    match approve_user admin s caller uid with
    | .ok s' => s'
    | .error _ => s
  | .disapprove caller uid =>
    match disapprove_user admin s caller uid with
    | .ok s' => s'
    | .error _ => s
  | .declare caller side =>
    match declare_result admin s caller side with
    | .ok s' => s'
    | .error _ => s
  | .resetRound caller =>
    match reset admin s caller with
    | .ok s' => s'
    | .error _ => s
  | .fixSlots caller n =>
    match fix_slots admin s caller n with
    | .ok s' => s'
    | .error _ => s
  | .openBetting caller =>
    match open_betting admin s caller with
    | .ok s' => s'
    | .error _ => s
  | .closeBetting caller =>
    match close_betting admin s caller with
    | .ok s' => s'
    | .error _ => s
  | .schedule caller t =>
    match schedule_betting admin s caller t with
    | .ok s' => s'
    | .error _ => s
  | .setAnnouncement caller t =>
    match set_announcement_time admin s caller t with
    | .ok s' => s'
    | .error _ => s

/-- Process a sequence of inbound events in order. -/
def run (admin : Nat) (s : State) (ops : List Op) : State :=
  ops.foldl (step admin) s

/-- The settings document the code inserts when the collection is created:
betting closed, 30 total and 30 available slots, no times set. -/
def initialSettings : Settings :=
  { betting_open := false, total_slots := 30, available_slots := 30,
    next_betting_time := none, result_announcement_time := none }

/-- The freshly initialized database: no users, initial settings, zero
tally, empty winner list. -/
def initialState : State :=
  { users := [], settings := initialSettings,
    results := { heads := 0, tails := 0 }, winners := [] }

/-- The per-user bound the spec places on `payment_attempts`. -/
def attemptsInv (s : State) : Prop :=
  ∀ u ∈ s.users, u.payment_attempts ≤ 3

instance attemptsInvDecidable (s : State) : Decidable (attemptsInv s) :=
  inferInstanceAs (Decidable (∀ u ∈ s.users, u.payment_attempts ≤ 3))

/-- Demonstration user 1: a waiting heads bet with one payment attempt. -/
def demoUser1 : User :=
  { user_id := 1, name := "alice", bet := some .heads,
    status := some .waiting, payment_attempts := 1 }

/-- Demonstration user 2: registered, no bet yet. -/
def demoUser2 : User :=
  { user_id := 2, name := "bob", bet := none, status := none,
    payment_attempts := 0 }

/-- Demonstration user 3: a waiting tails bet already at the three-attempt
limit. -/
def demoUser3 : User :=
  { user_id := 3, name := "carol", bet := some .tails,
    status := some .waiting, payment_attempts := 3 }

/-- A small concrete ledger exercising the theorems. -/
def demoUsers : List User := [demoUser1, demoUser2]

/-- The demonstration state built on `demoUsers`. -/
def demoState : State :=
  { users := demoUsers,
    settings :=
      { betting_open := true, total_slots := 2,
        available_slots := 2, next_betting_time := none,
        result_announcement_time := none },
    results := { heads := 0, tails := 0 }, winners := [] }

/-- The demonstration state extended with user 3, who has exhausted the
payment attempts. -/
def demoState3 : State :=
  { demoState with users := demoUsers ++ [demoUser3] }

theorem findUser_cons (u : User) (rest : List User) (uid : Nat) :
    findUser (u :: rest) uid =
      if u.user_id == uid then some u else findUser rest uid := by
  simp only [findUser, List.find?]
  cases h : u.user_id == uid <;> simp [h]

theorem updateUser_cons (u : User) (rest : List User) (uid : Nat)
    (f : User → User) :
    updateUser (u :: rest) uid f =
      if u.user_id == uid then f u :: rest
      else u :: updateUser rest uid f := rfl

theorem findUser_updateUser_self {users : List User} {uid : Nat} {u : User}
    {f : User → User} (hid : ∀ v, (f v).user_id = v.user_id)
    (h : findUser users uid = some u) :
    findUser (updateUser users uid f) uid = some (f u) := by
  induction users with
  | nil => simp [findUser] at h
  | cons v rest ih =>
    rw [findUser_cons] at h
    by_cases hv : (v.user_id == uid) = true
    · rw [if_pos hv] at h
      injection h with h1
      rw [updateUser_cons, if_pos hv, findUser_cons,
        if_pos (by rw [hid v]; exact hv), h1]
    · rw [if_neg hv] at h
      rw [updateUser_cons, if_neg hv, findUser_cons, if_neg hv]
      exact ih h

theorem mem_updateUser_of_findUser {users : List User} {uid : Nat} {u : User}
    (h : findUser users uid = some u) {f : User → User} {v : User}
    (hv : v ∈ updateUser users uid f) : v ∈ users ∨ v = f u := by
  induction users with
  | nil => simp [updateUser] at hv
  | cons w rest ih =>
    rw [findUser_cons] at h
    rw [updateUser_cons] at hv
    by_cases hw : (w.user_id == uid) = true
    · rw [if_pos hw] at h
      rw [if_pos hw] at hv
      injection h with h1
      rcases List.mem_cons.mp hv with h2 | h2
      · exact Or.inr (by rw [h2, h1])
      · exact Or.inl (List.mem_cons_of_mem _ h2)
    · rw [if_neg hw] at h
      rw [if_neg hw] at hv
      rcases List.mem_cons.mp hv with h2 | h2
      · exact Or.inl (by rw [h2]; exact List.mem_cons_self w rest)
      · rcases ih h h2 with h3 | h3
        · exact Or.inl (List.mem_cons_of_mem _ h3)
        · exact Or.inr h3

theorem place_bet_ok {s s' : State} {uid : Nat} {choice : Side}
    (h : place_bet s uid choice = .ok s') :
    s.settings.betting_open = true ∧ 0 < s.settings.available_slots ∧
      ∃ u, findUser s.users uid = some u ∧ u.bet = none ∧
        s' = { s with
                users := updateUser s.users uid
                  (fun v => { v with bet := some choice }) } := by
  simp only [place_bet] at h
  split at h
  · simp at h
  · rename_i heq
    simp only [bet] at heq
    split at heq
    · simp at heq
    · split at heq
      · simp at heq
      · rename_i h1 h2
        simp only [handle_bet_choice] at h
        split at h
        · simp at h
        · rename_i u hf
          split at h
          · simp at h
          · rename_i hbet
            injection h with h3
            exact ⟨by simpa using h1, by omega, u, hf,
              Option.not_isSome_iff_eq_none.mp (by simpa using hbet), h3.symm⟩

theorem handle_payment_ok {s s' : State} {uid : Nat} {w : Bool}
    (h : handle_payment_screenshot s uid = .ok (s', w)) :
    ∃ u, findUser s.users uid = some u ∧ u.bet.isSome ∧
      u.payment_attempts < 3 ∧
      s' = { s with
              users := updateUser
                (updateUser s.users uid
                  (fun v => { v with status := some .waiting })) uid
                (fun v =>
                  { v with payment_attempts := v.payment_attempts + 1 }) } ∧
      w = (u.payment_attempts + 1 == 3) := by
  simp only [handle_payment_screenshot] at h
  split at h
  · simp at h
  · rename_i u hf
    split at h
    · simp at h
    · split at h
      · simp at h
      · rename_i hbet hatt
        injection h with h1
        injection h1 with h2 h3
        refine ⟨u, hf, ?_, by omega, h2.symm, h3.symm⟩
        cases hu : u.bet with
        | none => rw [hu] at hbet; simp at hbet
        | some side => simp

theorem approve_user_ok {admin : Nat} {s s' : State} {caller uid : Nat}
    (h : approve_user admin s caller uid = .ok s') :
    caller = admin ∧ ∃ u, findUser s.users uid = some u ∧
      s' = { s with
              users := updateUser s.users uid
                (fun v => { v with status := some .approved,
                                   payment_attempts := 0 }),
              settings := { s.settings with
                available_slots := s.settings.available_slots - 1 } } := by
  simp only [approve_user] at h
  split at h
  · simp at h
  · rename_i hc
    split at h
    · simp at h
    · rename_i u hf
      injection h with h1
      exact ⟨not_not.mp hc, u, hf, h1.symm⟩

theorem disapprove_user_ok {admin : Nat} {s s' : State} {caller uid : Nat}
    (h : disapprove_user admin s caller uid = .ok s') :
    caller = admin ∧ ∃ u, findUser s.users uid = some u ∧
      s' = { s with
              users := updateUser s.users uid
                (fun v => { v with status := some .disapproved,
                                   payment_attempts := 0 }) } := by
  simp only [disapprove_user] at h
  split at h
  · simp at h
  · rename_i hc
    split at h
    · simp at h
    · rename_i u hf
      injection h with h1
      exact ⟨not_not.mp hc, u, hf, h1.symm⟩

theorem declare_result_ok {admin : Nat} {s s' : State} {caller : Nat}
    {side : Side} (h : declare_result admin s caller side = .ok s') :
    caller = admin ∧ s'.users = s.users ∧
      s'.winners = (s.users.filter (fun u =>
        u.bet == some side && u.status == some .approved)).map
        (fun u => u.user_id) ∧
      s'.settings = { s.settings with
        available_slots := s.settings.total_slots } ∧
      (side = .heads → s'.results.heads = s.results.heads + 1 ∧
        s'.results.tails = s.results.tails) ∧
      (side = .tails → s'.results.tails = s.results.tails + 1 ∧
        s'.results.heads = s.results.heads) := by
  simp only [declare_result] at h
  split at h
  · simp at h
  · rename_i hc
    injection h with h1
    subst h1
    refine ⟨not_not.mp hc, rfl, rfl, rfl, ?_, ?_⟩
    · rintro rfl
      exact ⟨rfl, rfl⟩
    · rintro rfl
      exact ⟨rfl, rfl⟩

theorem reset_ok {admin : Nat} {s s' : State} {caller : Nat}
    (h : reset admin s caller = .ok s') :
    caller = admin ∧
      s' = { s with
              users := s.users.map (fun u =>
                if u.bet.isSome then
                  { u with bet := none, status := none,
                           payment_attempts := 0 }
                else u),
              winners := [],
              results := { heads := 0, tails := 0 },
              settings := { s.settings with
                available_slots := s.settings.total_slots,
                next_betting_time := none,
                result_announcement_time := none } } := by
  simp only [reset] at h
  split at h
  · simp at h
  · rename_i hc
    injection h with h1
    exact ⟨not_not.mp hc, h1.symm⟩

theorem fix_slots_ok {admin : Nat} {s s' : State} {caller : Nat} {n : Int}
    (h : fix_slots admin s caller n = .ok s') :
    s' = { s with
            settings := { s.settings with
              total_slots := n, available_slots := n } } := by
  simp only [fix_slots] at h
  split at h
  · simp at h
  · injection h with h1
    exact h1.symm

theorem open_betting_ok {admin : Nat} {s s' : State} {caller : Nat}
    (h : open_betting admin s caller = .ok s') :
    s' = { s with
            settings := { s.settings with betting_open := true } } := by
  simp only [open_betting] at h
  split at h
  · simp at h
  · injection h with h1
    exact h1.symm

theorem close_betting_ok {admin : Nat} {s s' : State} {caller : Nat}
    (h : close_betting admin s caller = .ok s') :
    s' = { s with
            settings := { s.settings with betting_open := false } } := by
  simp only [close_betting] at h
  split at h
  · simp at h
  · injection h with h1
    exact h1.symm

theorem schedule_betting_ok {admin : Nat} {s s' : State} {caller : Nat}
    {t : String} (h : schedule_betting admin s caller t = .ok s') :
    s' = { s with
            settings := { s.settings with
              next_betting_time := some t } } := by
  simp only [schedule_betting] at h
  split at h
  · simp at h
  · injection h with h1
    exact h1.symm

theorem set_announcement_time_ok {admin : Nat} {s s' : State} {caller : Nat}
    {t : String} (h : set_announcement_time admin s caller t = .ok s') :
    s' = { s with
            settings := { s.settings with
              result_announcement_time := some t } } := by
  simp only [set_announcement_time] at h
  split at h
  · simp at h
  · injection h with h1
    exact h1.symm

theorem findUser_mem {users : List User} {uid : Nat} {u : User}
    (h : findUser users uid = some u) : u ∈ users :=
  List.mem_of_find?_eq_some h

theorem handle_bet_choice_found {s : State} {uid : Nat} {u : User}
    (hfind : findUser s.users uid = some u) (choice : Side) :
    handle_bet_choice s uid choice =
      if u.bet.isSome then .error .alreadyBet
      else .ok { s with
        users := updateUser s.users uid
          (fun v => { v with bet := some choice }) } := by
  simp only [handle_bet_choice]
  rw [hfind]

theorem bet_open {s : State} (hb : s.settings.betting_open = true)
    (hs : 0 < s.settings.available_slots) : bet s = .ok () := by
  simp only [bet, hb]
  rw [if_neg (by simp), if_neg (by omega)]

theorem place_bet_eq_choice {s : State} (uid : Nat) (choice : Side)
    (hb : s.settings.betting_open = true)
    (hs : 0 < s.settings.available_slots) :
    place_bet s uid choice = handle_bet_choice s uid choice := by
  simp only [place_bet, bet_open hb hs]

theorem handle_payment_screenshot_found {s : State} {uid : Nat} {u : User}
    (hfind : findUser s.users uid = some u) :
    handle_payment_screenshot s uid =
      if u.bet.isNone then .error .noBetPlaced
      else if 3 ≤ u.payment_attempts then .error .attemptsExceeded
      else .ok ({ s with
          users := updateUser
            (updateUser s.users uid
              (fun v => { v with status := some .waiting })) uid
            (fun v =>
              { v with payment_attempts := v.payment_attempts + 1 }) },
        u.payment_attempts + 1 == 3) := by
  simp only [handle_payment_screenshot]
  rw [hfind]

theorem approve_user_found {admin : Nat} {s : State} {uid : Nat} {u : User}
    (hfind : findUser s.users uid = some u) :
    approve_user admin s admin uid =
      .ok { s with
        users := updateUser s.users uid
          (fun v => { v with status := some .approved,
                             payment_attempts := 0 }),
        settings := { s.settings with
          available_slots := s.settings.available_slots - 1 } } := by
  simp only [approve_user]
  rw [if_neg (show ¬(admin ≠ admin) by simp), hfind]

/-- C1 (code bug): the settings invariant `0 ≤ available_slots` fails on
the code.  From the freshly initialized database, setting the capacity to
one slot, registering two users and approving both drives
`available_slots` to `-1`: `approve_user` decrements unconditionally,
with no lower-bound check and no already-approved guard. -/
theorem C1_available_slots_can_go_negative :
    (run 99 initialState
      [.fixSlots 99 1, .startOp 1 "alice", .startOp 2 "bob",
       .approve 99 1, .approve 99 2]).settings.available_slots = -1 ∧
    (run 99 initialState
      [.fixSlots 99 1, .startOp 1 "alice", .startOp 2 "bob",
       .approve 99 1, .approve 99 2]).settings.available_slots < 0 := by
  constructor <;> decide

/-- C2 (code bug): `approve_user` has no `AlreadyApproved` guard.
Approving user 1 of the demonstration state and then approving the same
user again succeeds both times: after the first call the status is
`approved`, yet the second call also returns ok and decrements
`available_slots` a second time, rather than failing and changing no
state. -/
theorem C2_reapproval_is_not_rejected :
    approve_user 99 demoState 99 1 =
      .ok (step 99 demoState (.approve 99 1)) ∧
    (findUser (step 99 demoState (.approve 99 1)).users 1).map User.status =
      some (some .approved) ∧
    approve_user 99 (step 99 demoState (.approve 99 1)) 99 1 =
      .ok (run 99 demoState [.approve 99 1, .approve 99 1]) ∧
    (run 99 demoState
        [.approve 99 1, .approve 99 1]).settings.available_slots =
      demoState.settings.available_slots - 2 :=
  ⟨rfl, by decide, rfl, by decide⟩

/-- C9: approval requires only that the caller is the operator and that
the target record exists; no bet or payment is checked.  Any registered
user — in particular one with `bet = none` and `status = none` — is set
to `approved` with `payment_attempts = 0`, and `available_slots` drops
by exactly one. -/
theorem C9_approve_requires_only_existence (admin : Nat) (s : State)
    (uid : Nat) (u : User) (hfind : findUser s.users uid = some u) :
    ∃ s', approve_user admin s admin uid = .ok s' ∧
      findUser s'.users uid =
        some { u with status := some .approved, payment_attempts := 0 } ∧
      s'.settings.available_slots = s.settings.available_slots - 1 := by
  refine ⟨_, approve_user_found hfind, ?_, rfl⟩
  exact findUser_updateUser_self (fun v => rfl) hfind

/-- Witness for C9: approving user 2 of the demonstration state, who has
neither bet nor submitted payment. -/
theorem C9_witness :
    findUser demoState.users 2 =
      some { user_id := 2, name := "bob",
             bet := none, status := none, payment_attempts := 0 } ∧
    ∃ s', approve_user 99 demoState 99 2 = .ok s' ∧
      findUser s'.users 2 =
        some { user_id := 2, name := "bob", bet := none,
               status := some .approved, payment_attempts := 0 } ∧
      s'.settings.available_slots =
        demoState.settings.available_slots - 1 :=
  ⟨by decide, C9_approve_requires_only_existence 99 demoState 2
    { user_id := 2, name := "bob", bet := none, status := none,
      payment_attempts := 0 } (by decide)⟩

/-- C3: after `declare(side)` by the operator, the stored winner list
holds exactly the ids of the users whose `bet` equals the declared side
and whose `status` is `approved` at the instant of the call, replacing
any prior list wholesale; and a later successful bet placement (the only
operation besides reset that writes a `bet` field) leaves the computed
list untouched. -/
theorem C3_declare_winner_set (admin : Nat) (s : State) (side : Side) :
    ∃ s', declare_result admin s admin side = .ok s' ∧
      (∀ uid, uid ∈ s'.winners ↔
        ∃ u ∈ s.users, u.user_id = uid ∧ u.bet = some side ∧
          u.status = some .approved) ∧
      (∀ uid2 choice s'', place_bet s' uid2 choice = .ok s'' →
        s''.winners = s'.winners) := by
  simp only [declare_result]
  rw [if_neg (show ¬(admin ≠ admin) by simp)]
  refine ⟨_, rfl, ?_, ?_⟩
  · intro uid
    constructor
    · intro hm
      rcases List.mem_map.mp hm with ⟨u, hu, rfl⟩
      rcases List.mem_filter.mp hu with ⟨hmem, hp⟩
      simp only [Bool.and_eq_true, beq_iff_eq] at hp
      exact ⟨u, hmem, rfl, hp.1, hp.2⟩
    · rintro ⟨u, hmem, rfl, hbet, hstat⟩
      exact List.mem_map.mpr ⟨u, List.mem_filter.mpr
        ⟨hmem, by simp [hbet, hstat]⟩, rfl⟩
  · intro uid2 choice s'' h
    rcases place_bet_ok h with ⟨-, -, u, -, -, rfl⟩
    rfl

/-- C4: the bet-placement protocol for a registered user: `RoundClosed`
when betting is closed, `SlotsFull` when no slot is free, `AlreadyBet`
when a bet is already recorded (the repeat call changing nothing, the
first bet kept); on success the chosen side is recorded and the settings
— in particular `available_slots` — are untouched. -/
theorem C4_place_bet_protocol (admin : Nat) (s : State) (uid : Nat)
    (choice choice2 : Side) (u : User)
    (hfind : findUser s.users uid = some u) :
    (s.settings.betting_open = false →
      place_bet s uid choice = .error .roundClosed) ∧
    (s.settings.betting_open = true → s.settings.available_slots ≤ 0 →
      place_bet s uid choice = .error .slotsFull) ∧
    (s.settings.betting_open = true → 0 < s.settings.available_slots →
      u.bet ≠ none →
      place_bet s uid choice = .error .alreadyBet ∧
      step admin s (.placeBet uid choice) = s) ∧
    (s.settings.betting_open = true → 0 < s.settings.available_slots →
      u.bet = none →
      ∃ s', place_bet s uid choice = .ok s' ∧
        findUser s'.users uid = some { u with bet := some choice } ∧
        s'.settings = s.settings ∧
        place_bet s' uid choice2 = .error .alreadyBet ∧
        step admin s' (.placeBet uid choice2) = s') := by
  refine ⟨?_, ?_, ?_, ?_⟩
  · intro hb
    simp [place_bet, bet, hb]
  · intro hb hs
    simp only [place_bet, bet, hb]
    rw [if_neg (by simp), if_pos hs]
  · intro hb hs hbet
    have hpb : place_bet s uid choice = .error .alreadyBet := by
      rw [place_bet_eq_choice uid choice hb hs,
        handle_bet_choice_found hfind, if_pos (by
          cases hu : u.bet
          · exact absurd hu hbet
          · simp [hu])]
    exact ⟨hpb, by simp [step, hpb]⟩
  · intro hb hs hbet
    have hpb : place_bet s uid choice =
        .ok { s with
               users := updateUser s.users uid
                 (fun v => { v with bet := some choice }) } := by
      rw [place_bet_eq_choice uid choice hb hs,
        handle_bet_choice_found hfind, if_neg (by simp [hbet])]
    have hfind2 : findUser (updateUser s.users uid
        (fun v => { v with bet := some choice })) uid =
        some { u with bet := some choice } :=
      findUser_updateUser_self (fun v => rfl) hfind
    have hpb2 : place_bet { s with
        users := updateUser s.users uid
          (fun v => { v with bet := some choice }) } uid choice2 =
        .error .alreadyBet := by
      rw [place_bet_eq_choice (s := { s with
            users := updateUser s.users uid
              (fun v => { v with bet := some choice }) }) uid choice2 hb hs,
        handle_bet_choice_found hfind2, if_pos (by simp)]
    refine ⟨_, hpb, hfind2, rfl, hpb2, ?_⟩
    simp [step, hpb2]

/-- Witness for C4 at the demonstration state: user 2 is registered with
no bet; betting is open with two free slots. -/
theorem C4_witness :
    findUser demoState.users 2 = some demoUser2 ∧
    ((demoState.settings.betting_open = false →
      place_bet demoState 2 .tails = .error .roundClosed) ∧
    (demoState.settings.betting_open = true →
      demoState.settings.available_slots ≤ 0 →
      place_bet demoState 2 .tails = .error .slotsFull) ∧
    (demoState.settings.betting_open = true →
      0 < demoState.settings.available_slots →
      demoUser2.bet ≠ none →
      place_bet demoState 2 .tails = .error .alreadyBet ∧
      step 99 demoState (.placeBet 2 .tails) = demoState) ∧
    (demoState.settings.betting_open = true →
      0 < demoState.settings.available_slots →
      demoUser2.bet = none →
      ∃ s', place_bet demoState 2 .tails = .ok s' ∧
        findUser s'.users 2 = some { demoUser2 with bet := some .tails } ∧
        s'.settings = demoState.settings ∧
        place_bet s' 2 .heads = .error .alreadyBet ∧
        step 99 s' (.placeBet 2 .heads) = s')) :=
  ⟨by decide,
    C4_place_bet_protocol 99 demoState 2 .tails .heads demoUser2 (by decide)⟩

/-- C6: a successful payment submission (registered user, non-null bet,
fewer than three attempts) produces one new state in which the user's
status is `waiting` and the attempt counter has grown by exactly one —
both writes land together in the single resulting state — and the
returned flag warns the caller exactly when the attempt recorded is the
third; the submission is still accepted (an `ok` result) in that case. -/
theorem C6_payment_success_effect (s : State) (uid : Nat) (u : User)
    (hfind : findUser s.users uid = some u) (hbet : u.bet.isSome = true)
    (hatt : u.payment_attempts < 3) :
    ∃ s', handle_payment_screenshot s uid =
        .ok (s', u.payment_attempts + 1 == 3) ∧
      findUser s'.users uid =
        some { u with status := some .waiting,
                      payment_attempts := u.payment_attempts + 1 } := by
  have hnone : u.bet.isNone = false := by
    cases hu : u.bet
    · rw [hu] at hbet
      exact absurd hbet (by simp)
    · simp [hu]
  have heq := handle_payment_screenshot_found hfind
  rw [if_neg (by rw [hnone]; simp), if_neg (by omega)] at heq
  have hf1 : findUser (updateUser s.users uid
      (fun v => { v with status := some .waiting })) uid =
      some { u with status := some .waiting } :=
    findUser_updateUser_self (fun v => rfl) hfind
  have hf2 : findUser (updateUser (updateUser s.users uid
      (fun v => { v with status := some .waiting })) uid
      (fun v => { v with payment_attempts := v.payment_attempts + 1 })) uid =
      some { u with status := some .waiting,
                    payment_attempts := u.payment_attempts + 1 } :=
    findUser_updateUser_self
      (f := fun v => { v with payment_attempts := v.payment_attempts + 1 })
      (fun v => rfl) hf1
  exact ⟨_, heq, hf2⟩

/-- Witness for C6: user 1 of the demonstration state submits a payment
screenshot; one prior attempt, so no final-attempt warning. -/
theorem C6_witness :
    findUser demoState.users 1 = some demoUser1 ∧
    demoUser1.bet.isSome = true ∧ demoUser1.payment_attempts < 3 ∧
    ∃ s', handle_payment_screenshot demoState 1 =
        .ok (s', demoUser1.payment_attempts + 1 == 3) ∧
      findUser s'.users 1 =
        some { demoUser1 with
               status := some .waiting,
               payment_attempts := demoUser1.payment_attempts + 1 } :=
  ⟨by decide, by decide, by decide,
    C6_payment_success_effect demoState 1 demoUser1 (by decide) (by decide)
      (by decide)⟩

/-- C7: declaring a result restores `available_slots` to `total_slots`
while leaving `betting_open` and every user record (bets, statuses,
attempt counters) untouched, and increments the cumulative counter of
the declared side only. -/
theorem C7_declare_frame (admin : Nat) (s : State) (side : Side) :
    ∃ s', declare_result admin s admin side = .ok s' ∧
      s'.settings.available_slots = s.settings.total_slots ∧
      s'.settings.betting_open = s.settings.betting_open ∧
      s'.settings.total_slots = s.settings.total_slots ∧
      s'.users = s.users ∧
      (side = .heads → s'.results.heads = s.results.heads + 1 ∧
        s'.results.tails = s.results.tails) ∧
      (side = .tails → s'.results.tails = s.results.tails + 1 ∧
        s'.results.heads = s.results.heads) := by
  simp only [declare_result]
  rw [if_neg (show ¬(admin ≠ admin) by simp)]
  refine ⟨_, rfl, rfl, rfl, rfl, rfl, ?_, ?_⟩
  · rintro rfl
    exact ⟨rfl, rfl⟩
  · rintro rfl
    exact ⟨rfl, rfl⟩

/-- Witness for C7: declaring tails on the demonstration state. -/
theorem C7_witness :
    ∃ s', declare_result 99 demoState 99 .tails = .ok s' ∧
      s'.settings.available_slots = demoState.settings.total_slots ∧
      s'.settings.betting_open = demoState.settings.betting_open ∧
      s'.settings.total_slots = demoState.settings.total_slots ∧
      s'.users = demoState.users ∧
      (Side.tails = .heads → s'.results.heads = demoState.results.heads + 1 ∧
        s'.results.tails = demoState.results.tails) ∧
      (Side.tails = .tails → s'.results.tails = demoState.results.tails + 1 ∧
        s'.results.heads = demoState.results.heads) :=
  C7_declare_frame 99 demoState .tails

/-- C8: reset clears `bet`/`status`/`payment_attempts` for exactly the
users whose `bet` is non-null (users without a bet keep their record
verbatim), removes no user record (same length, same ids in order),
empties the winner list, zeroes both tally counters, restores
`available_slots = total_slots`, clears both scheduled times, and leaves
`betting_open` unchanged. -/
theorem C8_reset_effect (admin : Nat) (s : State) :
    ∃ s', reset admin s admin = .ok s' ∧
      s'.users.length = s.users.length ∧
      (∀ u ∈ s.users, u.bet = none → u ∈ s'.users) ∧
      (∀ i (hi : i < s.users.length) (hi' : i < s'.users.length),
        (s'.users[i]).user_id = (s.users[i]).user_id ∧
        ((s.users[i]).bet = none → s'.users[i] = s.users[i]) ∧
        ((s.users[i]).bet ≠ none →
          s'.users[i] = { s.users[i] with
                          bet := none, status := none,
                          payment_attempts := 0 })) ∧
      s'.winners = [] ∧ s'.results.heads = 0 ∧ s'.results.tails = 0 ∧
      s'.settings.available_slots = s.settings.total_slots ∧
      s'.settings.next_betting_time = none ∧
      s'.settings.result_announcement_time = none ∧
      s'.settings.betting_open = s.settings.betting_open := by
  simp only [reset]
  rw [if_neg (show ¬(admin ≠ admin) by simp)]
  refine ⟨_, rfl, by simp, ?_, ?_, rfl, rfl, rfl, rfl, rfl, rfl, rfl⟩
  · intro u hu hbet
    refine List.mem_map.mpr ⟨u, hu, ?_⟩
    rw [hbet]
    simp
  · intro i hi hi'
    simp only [List.getElem_map]
    by_cases hbet : (s.users[i]).bet = none
    · rw [if_neg (by simp [hbet])]
      exact ⟨rfl, fun _ => rfl, fun hne => absurd hbet hne⟩
    · rw [if_pos (by
        cases hu : (s.users[i]).bet
        · exact absurd hu hbet
        · simp [hu])]
      exact ⟨rfl, fun h => absurd h hbet, fun _ => rfl⟩

/-- C10: because approval resets the attempt counter to zero, an already
approved user with a bet can submit payment again: the submission is
accepted, their status drops back to `waiting` with one attempt, and the
slot consumed at approval is not restored. -/
theorem C10_approved_user_can_resubmit (admin : Nat) (s : State)
    (uid : Nat) (u : User) (hfind : findUser s.users uid = some u)
    (hbet : u.bet.isSome = true) :
    ∃ s1 s2, approve_user admin s admin uid = .ok s1 ∧
      findUser s1.users uid =
        some { u with status := some .approved, payment_attempts := 0 } ∧
      handle_payment_screenshot s1 uid = .ok (s2, false) ∧
      findUser s2.users uid =
        some { u with status := some .waiting, payment_attempts := 1 } ∧
      s2.settings.available_slots = s.settings.available_slots - 1 := by
  have hnone : u.bet.isNone = false := by
    cases hu : u.bet
    · rw [hu] at hbet
      exact absurd hbet (by simp)
    · simp [hu]
  have hfind1 : findUser (updateUser s.users uid
      (fun v => { v with status := some .approved,
                         payment_attempts := 0 })) uid =
      some { u with status := some .approved, payment_attempts := 0 } :=
    findUser_updateUser_self (fun v => rfl) hfind
  have heq := handle_payment_screenshot_found
    (s := { s with
            users := updateUser s.users uid
              (fun v => { v with status := some .approved,
                                 payment_attempts := 0 }),
            settings := { s.settings with
              available_slots := s.settings.available_slots - 1 } }) hfind1
  rw [if_neg (by simp [hnone]), if_neg (by simp)] at heq
  have hf1 : findUser (updateUser (updateUser s.users uid
      (fun v => { v with status := some .approved,
                         payment_attempts := 0 })) uid
      (fun v => { v with status := some .waiting })) uid =
      some { u with status := some .waiting, payment_attempts := 0 } :=
    findUser_updateUser_self (f := fun v => { v with status := some .waiting })
      (fun v => rfl) hfind1
  have hf2 : findUser (updateUser (updateUser (updateUser s.users uid
      (fun v => { v with status := some .approved,
                         payment_attempts := 0 })) uid
      (fun v => { v with status := some .waiting })) uid
      (fun v => { v with payment_attempts := v.payment_attempts + 1 })) uid =
      some { u with status := some .waiting, payment_attempts := 1 } :=
    findUser_updateUser_self
      (f := fun v => { v with payment_attempts := v.payment_attempts + 1 })
      (fun v => rfl) hf1
  exact ⟨_, _, approve_user_found hfind, hfind1, heq, hf2, rfl⟩

/-- Witness for C10: user 1 of the demonstration state is approved and
then successfully submits another payment screenshot. -/
theorem C10_witness :
    findUser demoState.users 1 = some demoUser1 ∧
    demoUser1.bet.isSome = true ∧
    ∃ s1 s2, approve_user 99 demoState 99 1 = .ok s1 ∧
      findUser s1.users 1 =
        some { demoUser1 with
               status := some .approved, payment_attempts := 0 } ∧
      handle_payment_screenshot s1 1 = .ok (s2, false) ∧
      findUser s2.users 1 =
        some { demoUser1 with
               status := some .waiting, payment_attempts := 1 } ∧
      s2.settings.available_slots =
        demoState.settings.available_slots - 1 :=
  ⟨by decide, by decide,
    C10_approved_user_can_resubmit 99 demoState 1 demoUser1 (by decide)
      (by decide)⟩

theorem attemptsInv_step (admin : Nat) (s : State) (op : Op)
    (h : attemptsInv s) : attemptsInv (step admin s op) := by
  cases op with
  | startOp uid name =>
    simp only [step, start]
    split
    · exact h
    · intro v hv
      rcases List.mem_append.mp hv with h1 | h1
      · exact h v h1
      · rw [List.mem_singleton.mp h1]
        exact Nat.zero_le 3
  | placeBet uid choice =>
    simp only [step]
    split
    · rename_i s' heq
      obtain ⟨-, -, u, hf, -, rfl⟩ := place_bet_ok heq
      intro v hv
      rcases mem_updateUser_of_findUser hf hv with h1 | h1
      · exact h v h1
      · rw [h1]
        exact h u (findUser_mem hf)
    · exact h
  | submitPayment uid =>
    simp only [step]
    split
    · rename_i s' w heq
      obtain ⟨u, hf, -, hatt, rfl, -⟩ := handle_payment_ok heq
      intro v hv
      have hf1 : findUser (updateUser s.users uid
          (fun x => { x with status := some .waiting })) uid =
          some { u with status := some .waiting } :=
        findUser_updateUser_self
          (f := fun x => { x with status := some .waiting })
          (fun x => rfl) hf
      rcases mem_updateUser_of_findUser hf1 hv with h1 | h1
      · rcases mem_updateUser_of_findUser hf h1 with h2 | h2
        · exact h v h2
        · rw [h2]
          exact h u (findUser_mem hf)
      · rw [h1]
        show u.payment_attempts + 1 ≤ 3
        omega
    · exact h
  | approve caller uid =>
    simp only [step]
    split
    · rename_i s' heq
      obtain ⟨-, u, hf, rfl⟩ := approve_user_ok heq
      intro v hv
      rcases mem_updateUser_of_findUser hf hv with h1 | h1
      · exact h v h1
      · rw [h1]
        exact Nat.zero_le 3
    · exact h
  | disapprove caller uid =>
    simp only [step]
    split
    · rename_i s' heq
      obtain ⟨-, u, hf, rfl⟩ := disapprove_user_ok heq
      intro v hv
      rcases mem_updateUser_of_findUser hf hv with h1 | h1
      · exact h v h1
      · rw [h1]
        exact Nat.zero_le 3
    · exact h
  | declare caller side =>
    simp only [step]
    split
    · rename_i s' heq
      intro v hv
      rw [(declare_result_ok heq).2.1] at hv
      exact h v hv
    · exact h
  | resetRound caller =>
    simp only [step]
    split
    · rename_i s' heq
      obtain ⟨-, rfl⟩ := reset_ok heq
      intro v hv
      simp only [List.mem_map] at hv
      obtain ⟨w, hw, hgw⟩ := hv
      rw [← hgw]
      split
      · exact Nat.zero_le 3
      · exact h w hw
    · exact h
  | fixSlots caller n =>
    simp only [step]
    split
    · rename_i s' heq
      rw [fix_slots_ok heq]
      intro v hv
      exact h v hv
    · exact h
  | openBetting caller =>
    simp only [step]
    split
    · rename_i s' heq
      rw [open_betting_ok heq]
      intro v hv
      exact h v hv
    · exact h
  | closeBetting caller =>
    simp only [step]
    split
    · rename_i s' heq
      rw [close_betting_ok heq]
      intro v hv
      exact h v hv
    · exact h
  | schedule caller t =>
    simp only [step]
    split
    · rename_i s' heq
      rw [schedule_betting_ok heq]
      intro v hv
      exact h v hv
    · exact h
  | setAnnouncement caller t =>
    simp only [step]
    split
    · rename_i s' heq
      rw [set_announcement_time_ok heq]
      intro v hv
      exact h v hv
    · exact h

theorem attemptsInv_run (admin : Nat) (s : State) (ops : List Op)
    (h : attemptsInv s) : attemptsInv (run admin s ops) := by
  induction ops generalizing s with
  | nil => exact h
  | cons op rest ih => exact ih (step admin s op) (attemptsInv_step admin s op h)

/-- C5: along every event sequence from a state satisfying the bound,
each user's `payment_attempts` stays at most 3; and a payment submission
by a user already at 3 attempts fails with `AttemptsExceeded`, the whole
state (so in particular the counter and every other user field) left
unchanged by the event. -/
theorem C5_attempts_never_exceed_three (admin : Nat) (s : State)
    (ops : List Op) (uid : Nat) (u : User) (hinv : attemptsInv s)
    (hfind : findUser s.users uid = some u) (hbet : u.bet.isSome = true)
    (hatt : u.payment_attempts = 3) :
    attemptsInv (run admin s ops) ∧
    handle_payment_screenshot s uid = .error .attemptsExceeded ∧
    step admin s (.submitPayment uid) = s := by
  have hnone : u.bet.isNone = false := by
    cases hu : u.bet
    · rw [hu] at hbet
      exact absurd hbet (by simp)
    · simp [hu]
  have herr : handle_payment_screenshot s uid = .error .attemptsExceeded := by
    rw [handle_payment_screenshot_found hfind, if_neg (by simp [hnone]),
      if_pos (by omega)]
  exact ⟨attemptsInv_run admin s ops hinv, herr, by simp [step, herr]⟩

/-- Witness for C5: user 3 of the extended demonstration state is at the
three-attempt limit; a fourth submission is rejected and the bound holds
along a sample event sequence. -/
theorem C5_witness :
    attemptsInv demoState3 ∧
    findUser demoState3.users 3 = some demoUser3 ∧
    demoUser3.bet.isSome = true ∧
    demoUser3.payment_attempts = 3 ∧
    (attemptsInv (run 99 demoState3
        [.submitPayment 3, .submitPayment 1, .approve 99 1]) ∧
     handle_payment_screenshot demoState3 3 = .error .attemptsExceeded ∧
     step 99 demoState3 (.submitPayment 3) = demoState3) :=
  ⟨by decide, by decide, by decide, by decide,
    C5_attempts_never_exceed_three 99 demoState3
      [.submitPayment 3, .submitPayment 1, .approve 99 1] 3 demoUser3
      (by decide) (by decide) (by decide) (by decide)⟩

end Bet
